import Mathlib

/- Verification of the async task lifecycle engine of
   packages/toolkit/src/createAsyncThunk.ts (redux-toolkit v1.9.0).

   The embedding models JavaScript values as the inductive JSVal, actions
   (lifecycle events) as records of JSVal fields, and one invocation of the
   thunk as a pure function from an invocation configuration (condition
   behaviour, payload-creator outcome and settle step, abort-call timing)
   to the list of dispatched actions plus the final action the returned
   promise resolves to.  JavaScript exceptions are modelled with Except;
   the try/catch of the source is an explicit catch clause.

   Object-spread encoding: the source builds action metadata as
   spread of the user meta followed by the engine fields, so the engine
   fields win on key clashes.  Lookup in this file is first-match, so the
   same semantics is encoded by listing the engine fields first and the
   spread user fields after them. -/

set_option autoImplicit false

namespace RTK

/- JavaScript runtime values, as far as the engine inspects them. -/
inductive JSVal where
  | jsUndefined
  | null
  | bool (b : Bool)
  | num (n : Int)
  | str (s : String)
  | obj (fields : List (String × JSVal))

/- JavaScript truthiness for the modelled values. -/
def jsTruthy : JSVal → Bool
  | .jsUndefined => false
  | .null => false
  | .bool b => b
  | .num n => n != 0
  | .str s => s != ""
  | .obj _ => true

/- JavaScript String(value) coercion for the modelled values. -/
def jsToString : JSVal → String
  | .jsUndefined => "undefined"
  | .null => "null"
  | .bool b => if b then "true" else "false"
  | .num n => toString n
  | .str s => s
  | .obj _ => "[object Object]"

/- First-match association lookup (JavaScript property access on the
   field lists built in this file). -/
def getProp : List (String × JSVal) → String → Option JSVal
  | [], _ => none
  | (key, v) :: rest, k => if key = k then some v else getProp rest k

/- Property access value[k], undefined when absent or not an object. -/
def propGet (v : JSVal) (k : String) : JSVal :=
  match v with
  | .obj fields => (getProp fields k).getD .jsUndefined
  | _ => .jsUndefined

/- Fields contributed by spreading a value, as in the source's
   spread of (meta or empty object): falsy values and non-objects
   contribute nothing, strings contribute their indexed characters,
   objects contribute their fields. -/
def spreadFields : JSVal → List (String × JSVal)
  | .obj fields => fields
  | .str s => s.toList.enum.map (fun p => (toString p.1, JSVal.str (String.singleton p.2)))
  | _ => []

/- Test value.name strictly-equal to a string literal, as in
   the source's optional-chained name comparison on line 562. -/
def nameIs (v : JSVal) (s : String) : Bool :=
  match v with
  | .obj fields =>
    match getProp fields "name" with
    | some (.str n) => n == s
    | _ => false
  | _ => false

/- Strict equality with the literal false (conditionResult === false). -/
def strictFalse : JSVal → Bool
  | .bool false => true
  | _ => false

/- The four properties copied by the default error serializer
   (commonProperties, createAsyncThunk.ts lines 58-63). -/
def commonProperties : List String := ["name", "message", "stack", "code"]

/- Default error normalizer (miniSerializeError, lines 95-108): for an
   object, copy exactly the string-typed fields among commonProperties;
   otherwise build a message from String(value). -/
def miniSerializeError (value : JSVal) : JSVal :=
  match value with
  | .obj fields =>
    .obj (commonProperties.filterMap fun property =>
      match getProp fields property with
      | some (.str s) => some (property, JSVal.str s)
      | _ => none)
  | v => .obj [("message", .str (jsToString v))]

/- A dispatched action (lifecycle event): type string, payload, error
   field (jsUndefined when the prepare callback adds none) and meta object. -/
structure Action where
  type : String
  payload : JSVal
  error : JSVal
  meta : JSVal

/- The fulfilled action creator's prepare callback (lines 501-524):
   meta is the spread of the caller meta overridden by arg, requestId and
   requestStatus (engine fields listed first, see the spread encoding note). -/
def fulfilledAction (p : String) (payload : JSVal) (requestId : String)
    (arg : JSVal) (meta : JSVal) : Action :=
  { type := p ++ "/fulfilled"
    payload := payload
    error := .jsUndefined
    meta := .obj ([("arg", arg),
                   ("requestId", .str requestId),
                   ("requestStatus", .str "fulfilled")] ++ spreadFields meta) }

/- The pending action creator's prepare callback (lines 527-539). -/
def pendingAction (p : String) (requestId : String) (arg : JSVal)
    (meta : JSVal) : Action :=
  { type := p ++ "/pending"
    payload := .jsUndefined
    error := .jsUndefined
    meta := .obj ([("arg", arg),
                   ("requestId", .str requestId),
                   ("requestStatus", .str "pending")] ++ spreadFields meta) }

/- The rejected action creator's prepare callback (lines 542-566), with
   the default serializeError.  rejectedWithValue is the truthiness of
   the payload argument; aborted and condition test the error's name. -/
def rejectedAction (p : String) (error : JSVal) (requestId : String)
    (arg : JSVal) (payload : JSVal) (meta : JSVal) : Action :=
  { type := p ++ "/rejected"
    payload := payload
    error := miniSerializeError (if jsTruthy error then error else .str "Rejected")
    meta := .obj ([("arg", arg),
                   ("requestId", .str requestId),
                   ("rejectedWithValue", .bool (jsTruthy payload)),
                   ("requestStatus", .str "rejected"),
                   ("aborted", .bool (nameIs error "AbortError")),
                   ("condition", .bool (nameIs error "ConditionError"))]
                  ++ spreadFields meta) }

/- unwrapResult (lines 808-819): throw the payload when meta is truthy and
   meta.rejectedWithValue is truthy, else throw a truthy error field, else
   return the payload.  Thrown values are the Except error. -/
def unwrapResult (action : Action) : Except JSVal JSVal :=
  if jsTruthy action.meta && jsTruthy (propGet action.meta "rejectedWithValue") then
    .error action.payload
  else if jsTruthy action.error then
    .error action.error
  else
    .ok action.payload

/- Behaviour of the condition option for one invocation: its settled
   result value, or the value it throws (a rejecting promise and a
   synchronous throw reach the same catch, an awaited promise and a plain
   value reach the same strict comparison with false). -/
inductive CondBehavior where
  | ret (v : JSVal)
  | throw (e : JSVal)

/- The options object of createAsyncThunk, restricted to the fields the
   claims touch; getPendingMeta is modelled by the meta value it returns
   (none when the option is absent) and serializeError is the default. -/
structure ThunkOptions where
  condition : Option CondBehavior
  dispatchConditionRejection : Bool
  getPendingMeta : Option JSVal

/- Outcome of the payload creator for one invocation: a plain settled
   value, one of the two wrapper instances, or a thrown/rejected value. -/
inductive CreatorOutcome where
  | value (v : JSVal)
  | fulfillWith (v : JSVal) (meta : JSVal)
  | rejectWith (payload : JSVal) (meta : JSVal)
  | throws (e : JSVal)

/- When (if ever) the caller invokes the handle's abort function:
   never, before the controller is armed (started is still false), or a
   number of scheduling steps after arming, with the optional reason. -/
inductive AbortCall where
  | noAbort
  | beforeArming (reason : Option String)
  | afterArming (step : Nat) (reason : Option String)

/- Configuration of one invocation: the options, the payload creator's
   outcome and the step at which it settles, and the abort-call timing. -/
structure RunCfg where
  options : Option ThunkOptions
  creator : CreatorOutcome
  creatorStep : Nat
  abort : AbortCall

/- A value thrown inside the async body: an ordinary JavaScript value, or
   a RejectWithValue instance (the instanceof test in the catch clause). -/
inductive Thrown where
  | js (v : JSVal)
  | rwv (payload : JSVal) (meta : JSVal)

/- The literal thrown when the condition returns false (lines 653-659). -/
def conditionError : JSVal :=
  .obj [("name", .str "ConditionError"),
        ("message", .str "Aborted due to condition callback returning false.")]

/- Message of the abort rejection: abortReason or the default (line 622). -/
def abortMessage : Option String → String
  | some r => if r = "" then "Aborted" else r
  | none => "Aborted"

/- The literal the abortedPromise rejects with (lines 620-624). -/
def abortError (reason : Option String) : JSVal :=
  .obj [("name", .str "AbortError"),
        ("message", .str (abortMessage reason))]

/- The settled condition result: undefined when options or the condition
   option are absent, else the condition's behaviour (lines 645-651). -/
def condResult : Option ThunkOptions → Except JSVal JSVal
  | none => .ok .jsUndefined
  | some opts =>
    match opts.condition with
    | none => .ok .jsUndefined
    | some (.ret v) => .ok v
    | some (.throw e) => .error e

/- The meta argument passed to the pending action creator (lines 671-674). -/
def pendingMetaOf : Option ThunkOptions → JSVal
  | none => .jsUndefined
  | some opts => opts.getPendingMeta.getD .jsUndefined

/- Whether the abortedPromise wins the race of lines 679-714: the abort
   must have been called after arming, no later than the step at which
   the payload creator's settlement is ready.  abortedPromise is listed
   first in the race array, so when both are ready in the same step the
   race rejects with the abort error (ties go to the abort). -/
def abortWins : AbortCall → Nat → Bool
  | .afterArming step _, creatorStep => decide (step ≤ creatorStep)
  | _, _ => false

/- The reason recorded by the abort call, if any. -/
def abortReasonOf : AbortCall → Option String
  | .noAbort => none
  | .beforeArming r => r
  | .afterArming _ r => r

/- Result of the race (lines 679-714): the abort rejection when the
   abortedPromise wins, otherwise the classification of the creator's
   outcome by the then callback of lines 702-713 (a RejectWithValue
   result is thrown, a FulfillWithMeta result and a plain result become
   fulfilled actions). -/
def raceResult (p : String) (arg : JSVal) (requestId : String)
    (cfg : RunCfg) : Except Thrown Action :=
  if abortWins cfg.abort cfg.creatorStep then
    .error (.js (abortError (abortReasonOf cfg.abort)))
  else
    match cfg.creator with
    | .value v => .ok (fulfilledAction p v requestId arg .jsUndefined)
    | .fulfillWith v m => .ok (fulfilledAction p v requestId arg m)
    | .rejectWith pl m => .error (.rwv pl m)
    | .throws e => .error (.js e)

/- The try block of lines 643-716: evaluate the condition, throw the
   ConditionError when it is strictly false (before arming, so nothing is
   dispatched), else dispatch the pending action and run the race.
   Returns the dispatches performed so far and the outcome. -/
def tryBlock (p : String) (arg : JSVal) (requestId : String)
    (cfg : RunCfg) : List Action × Except Thrown Action :=
  match condResult cfg.options with
  | .error e => ([], .error (.js e))
  | .ok cv =>
    if strictFalse cv then
      ([], .error (.js conditionError))
    else
      ([pendingAction p requestId arg (pendingMetaOf cfg.options)],
       raceResult p arg requestId cfg)

/- The catch clause of lines 718-723: a thrown RejectWithValue instance
   becomes a rejected action with a null error and its payload and meta,
   any other thrown value becomes a rejected action built from it. -/
def catchClause (p : String) (requestId : String) (arg : JSVal) :
    Thrown → Action
  | .rwv pl m => rejectedAction p .null requestId arg pl m
  | .js e => rejectedAction p e requestId arg .jsUndefined .jsUndefined

/- The dispatch-suppression test of lines 730-734: options is present,
   dispatchConditionRejection is not set, the final action matches the
   rejected type and its meta.condition is truthy. -/
def skipDispatch (p : String) (o : Option ThunkOptions) (a : Action) : Bool :=
  match o with
  | none => false
  | some opts =>
    !opts.dispatchConditionRejection &&
    (a.type == p ++ "/rejected") &&
    jsTruthy (propGet a.meta "condition")

/- One full invocation (the async function of lines 640-743): run the try
   block, convert a thrown value with the catch clause, then dispatch the
   final action unless suppressed.  Returns the ordered dispatch list and
   the final action the returned promise resolves to. -/
def runThunk (p : String) (arg : JSVal) (requestId : String)
    (cfg : RunCfg) : List Action × Action :=
  let t := tryBlock p arg requestId cfg
  let finalAction :=
    match t.2 with
    | .ok a => a
    | .error thrown => catchClause p requestId arg thrown
  (t.1 ++ (if skipDispatch p cfg.options finalAction then [] else [finalAction]),
   finalAction)

/- The handle's unwrap method (lines 752-754): unwrapResult applied to
   the final action the promise resolves to. -/
def unwrapRun (p : String) (arg : JSVal) (requestId : String)
    (cfg : RunCfg) : Except JSVal JSVal :=
  unwrapResult (runThunk p arg requestId cfg).2

/- Meta field access on an action. -/
def metaGet (a : Action) (k : String) : JSVal :=
  propGet a.meta k

/- Whether the action's meta object carries the key at all. -/
def metaHas (a : Action) (k : String) : Bool :=
  match a.meta with
  | .obj fields => (getProp fields k).isSome
  | _ => false

/- The condition gate is absent or passes (settles to a value that is not
   strictly false). -/
def condPasses (o : Option ThunkOptions) : Prop :=
  ∃ cv, condResult o = .ok cv ∧ strictFalse cv = false

/- The engine-owned meta keys of a rejected action. -/
def rejectedEngineKeys : List String :=
  ["arg", "requestId", "rejectedWithValue", "requestStatus", "aborted", "condition"]

/- Helper lemmas about the embedding. -/

theorem string_append_left_cancel {p s t : String} (h : p ++ s = p ++ t) : s = t := by
  have h2 := congrArg String.data h
  simp only [String.data_append] at h2
  exact String.ext (List.append_cancel_left h2)

theorem fulfilled_ne_rejected (p : String) :
    p ++ "/fulfilled" ≠ p ++ "/rejected" := by
  intro h
  have := string_append_left_cancel h
  simp at this

theorem pending_ne_rejected (p : String) :
    p ++ "/pending" ≠ p ++ "/rejected" := by
  intro h
  have := string_append_left_cancel h
  simp at this

@[simp]
theorem getProp_nil (k : String) : getProp [] k = none := rfl

@[simp]
theorem getProp_cons (key : String) (v : JSVal) (rest : List (String × JSVal))
    (k : String) :
    getProp ((key, v) :: rest) k = if key = k then some v else getProp rest k := rfl

theorem getProp_append_of_none {l₁ : List (String × JSVal)}
    (l₂ : List (String × JSVal)) {k : String} (h : getProp l₁ k = none) :
    getProp (l₁ ++ l₂) k = getProp l₂ k := by
  induction l₁ with
  | nil => rfl
  | cons hd tl ih =>
    obtain ⟨key, v⟩ := hd
    rw [getProp_cons] at h
    by_cases hk : key = k
    · rw [if_pos hk] at h; cases h
    · rw [if_neg hk] at h
      rw [List.cons_append, getProp_cons, if_neg hk]
      exact ih h

theorem getProp_serializeFields (props : List String)
    (e : List (String × JSVal)) (k : String) :
    getProp (props.filterMap fun property =>
      match getProp e property with
      | some (.str s) => some (property, JSVal.str s)
      | _ => none) k =
    (if k ∈ props then
      match getProp e k with
      | some (.str s) => some (JSVal.str s)
      | _ => none
    else none) := by
  induction props with
  | nil => simp
  | cons hd tl ih =>
    rw [List.filterMap_cons]
    by_cases hk : hd = k
    · subst hk
      rcases h : getProp e hd with _ | v
      · simp [h, ih, List.mem_cons]
      · cases v <;> simp [h, ih, List.mem_cons]
    · have hk2 : ¬ k = hd := fun hh => hk hh.symm
      rcases h : getProp e hd with _ | v
      · simp [h, ih, List.mem_cons, hk2]
      · cases v <;> simp [h, ih, hk, hk2, List.mem_cons]

theorem jsTruthy_miniSerializeError (v : JSVal) :
    jsTruthy (miniSerializeError v) = true := by
  cases v <;> rfl

theorem runThunk_snd (p : String) (arg : JSVal) (rid : String) (cfg : RunCfg) :
    (runThunk p arg rid cfg).2 =
      match (tryBlock p arg rid cfg).2 with
      | .ok a => a
      | .error thrown => catchClause p rid arg thrown := rfl

theorem runThunk_fst (p : String) (arg : JSVal) (rid : String) (cfg : RunCfg) :
    (runThunk p arg rid cfg).1 =
      (tryBlock p arg rid cfg).1 ++
        (if skipDispatch p cfg.options (runThunk p arg rid cfg).2 then []
         else [(runThunk p arg rid cfg).2]) := rfl

theorem tryBlock_fst_shape (p : String) (arg : JSVal) (rid : String) (cfg : RunCfg) :
    (tryBlock p arg rid cfg).1 = [] ∨
    (tryBlock p arg rid cfg).1 =
      [pendingAction p rid arg (pendingMetaOf cfg.options)] := by
  rcases h : condResult cfg.options with e | cv
  · left; simp [tryBlock, h]
  · by_cases hf : strictFalse cv
    · left; simp [tryBlock, h, hf]
    · right; simp [tryBlock, h, hf]

theorem final_shape (p : String) (arg : JSVal) (rid : String) (cfg : RunCfg) :
    (∃ v m, (runThunk p arg rid cfg).2 = fulfilledAction p v rid arg m) ∨
    (∃ e pl m, (runThunk p arg rid cfg).2 = rejectedAction p e rid arg pl m) := by
  rw [runThunk_snd]
  rcases h : condResult cfg.options with e | cv
  · right
    refine ⟨e, .jsUndefined, .jsUndefined, ?_⟩
    simp [tryBlock, h, catchClause]
  · by_cases hf : strictFalse cv
    · right
      refine ⟨conditionError, .jsUndefined, .jsUndefined, ?_⟩
      simp [tryBlock, h, hf, catchClause]
    · by_cases hw : abortWins cfg.abort cfg.creatorStep
      · right
        refine ⟨abortError (abortReasonOf cfg.abort), .jsUndefined, .jsUndefined, ?_⟩
        simp [tryBlock, h, hf, raceResult, hw, catchClause]
      · rcases hc : cfg.creator with v | ⟨v, m⟩ | ⟨pl, m⟩ | e
        · left
          refine ⟨v, .jsUndefined, ?_⟩
          simp [tryBlock, h, hf, raceResult, hw, hc]
        · left
          refine ⟨v, m, ?_⟩
          simp [tryBlock, h, hf, raceResult, hw, hc]
        · right
          refine ⟨.null, pl, m, ?_⟩
          simp [tryBlock, h, hf, raceResult, hw, hc, catchClause]
        · right
          refine ⟨e, .jsUndefined, .jsUndefined, ?_⟩
          simp [tryBlock, h, hf, raceResult, hw, hc, catchClause]

theorem dispatched_shape (p : String) (arg : JSVal) (rid : String) (cfg : RunCfg)
    (a : Action) (ha : a ∈ (runThunk p arg rid cfg).1) :
    a = pendingAction p rid arg (pendingMetaOf cfg.options) ∨
    a = (runThunk p arg rid cfg).2 := by
  rw [runThunk_fst] at ha
  rcases List.mem_append.mp ha with h1 | h2
  · rcases tryBlock_fst_shape p arg rid cfg with h | h <;> rw [h] at h1
    · cases h1
    · left
      exact List.eq_of_mem_singleton h1
  · by_cases hs : skipDispatch p cfg.options (runThunk p arg rid cfg).2
    · rw [if_pos hs] at h2
      cases h2
    · rw [if_neg hs] at h2
      right
      exact List.eq_of_mem_singleton h2

theorem runThunk_abort_inert (p : String) (arg : JSVal) (rid : String)
    (cfg : RunCfg) (a1 a2 : AbortCall)
    (h1 : abortWins a1 cfg.creatorStep = false)
    (h2 : abortWins a2 cfg.creatorStep = false) :
    runThunk p arg rid { cfg with abort := a1 } =
    runThunk p arg rid { cfg with abort := a2 } := by
  obtain ⟨opts, creator, step, ab⟩ := cfg
  simp only [runThunk, tryBlock, raceResult, condResult] at h1 h2 ⊢
  simp [h1, h2]

theorem skipDispatch_fulfilled (p : String) (o : Option ThunkOptions)
    (v : JSVal) (rid : String) (arg m : JSVal) :
    skipDispatch p o (fulfilledAction p v rid arg m) = false := by
  have hbeq : ((p ++ "/fulfilled") == (p ++ "/rejected")) = false := by
    simp [fulfilled_ne_rejected p]
  cases o <;> simp [skipDispatch, fulfilledAction, hbeq]

/-- C10: for every caller-supplied metadata object (pending meta,
fulfillWithValue meta or rejectWithValue meta), the engine's own meta
fields cannot be overwritten: the built event's meta.arg, meta.requestId
and meta.requestStatus (and, for rejected events, meta.rejectedWithValue,
meta.aborted and meta.condition) always equal the engine-computed values,
because the user meta is spread before the engine's fields. -/
theorem c10_engine_meta_not_overwritable (p rid : String)
    (arg v err pl userMeta : JSVal) :
    metaGet (pendingAction p rid arg userMeta) "arg" = arg ∧
    metaGet (pendingAction p rid arg userMeta) "requestId" = .str rid ∧
    metaGet (pendingAction p rid arg userMeta) "requestStatus" = .str "pending" ∧
    metaGet (fulfilledAction p v rid arg userMeta) "arg" = arg ∧
    metaGet (fulfilledAction p v rid arg userMeta) "requestId" = .str rid ∧
    metaGet (fulfilledAction p v rid arg userMeta) "requestStatus" = .str "fulfilled" ∧
    metaGet (rejectedAction p err rid arg pl userMeta) "arg" = arg ∧
    metaGet (rejectedAction p err rid arg pl userMeta) "requestId" = .str rid ∧
    metaGet (rejectedAction p err rid arg pl userMeta) "requestStatus" = .str "rejected" ∧
    metaGet (rejectedAction p err rid arg pl userMeta) "rejectedWithValue"
      = .bool (jsTruthy pl) ∧
    metaGet (rejectedAction p err rid arg pl userMeta) "aborted"
      = .bool (nameIs err "AbortError") ∧
    metaGet (rejectedAction p err rid arg pl userMeta) "condition"
      = .bool (nameIs err "ConditionError") :=
  ⟨rfl, rfl, rfl, rfl, rfl, rfl, rfl, rfl, rfl, rfl, rfl, rfl⟩

/-- C2 counterexample: the payload creator returns
rejectWithValue with the falsy payload 0 and empty metadata; the claim
asserts the final event's rejectedWithValue flag is true for any payload,
but the code computes the flag as the truthiness of the payload
(rejectedAction line 560), so the flag is false here. -/
theorem c2_falsy_payload_counterexample :
    (runThunk "t" (.num 5) "r"
      { options := none, creator := .rejectWith (.num 0) (.obj []),
        creatorStep := 0, abort := .noAbort }).2.payload = .num 0 ∧
    metaGet (runThunk "t" (.num 5) "r"
      { options := none, creator := .rejectWith (.num 0) (.obj []),
        creatorStep := 0, abort := .noAbort }).2 "rejectedWithValue"
      = .bool false ∧
    JSVal.bool false ≠ JSVal.bool true :=
  ⟨rfl, rfl, fun h => by simp at h⟩

/-- C3 counterexample: abort is called after arming but one step after
the payload creator's settlement is ready, so the settlement wins the
race; the final event is the fulfilled event and its metadata has no
aborted flag at all, contradicting the claim that abort after arming
always yields a failed event with metadata.aborted true. -/
theorem c3_abort_after_settlement_counterexample :
    (runThunk "t" (.num 5) "r"
      { options := none, creator := .value (.num 1),
        creatorStep := 0, abort := .afterArming 1 none }).2
      = fulfilledAction "t" (.num 1) "r" (.num 5) .jsUndefined ∧
    metaGet (runThunk "t" (.num 5) "r"
      { options := none, creator := .value (.num 1),
        creatorStep := 0, abort := .afterArming 1 none }).2 "aborted"
      = .jsUndefined ∧
    JSVal.jsUndefined ≠ JSVal.bool true :=
  ⟨rfl, rfl, fun h => by cases h⟩

/-- C6 counterexample: a payload creator that settles with
fulfillWithValue(7, meta) where the caller meta contains a truthy
rejectedWithValue key produces a fulfilled final event, yet unwrapResult
throws its payload instead of resolving to it, contradicting the claim
that unwrap resolves to the payload for every fulfilled event. -/
theorem c6_fulfilled_flag_counterexample :
    (runThunk "t" (.num 3) "r"
      { options := none,
        creator := .fulfillWith (.num 7) (.obj [("rejectedWithValue", .bool true)]),
        creatorStep := 0, abort := .noAbort }).2.type = "t" ++ "/fulfilled" ∧
    unwrapResult (runThunk "t" (.num 3) "r"
      { options := none,
        creator := .fulfillWith (.num 7) (.obj [("rejectedWithValue", .bool true)]),
        creatorStep := 0, abort := .noAbort }).2 = .error (.num 7) ∧
    (Except.error (JSVal.num 7) : Except JSVal JSVal) ≠ .ok (.num 7) :=
  ⟨rfl, rfl, fun h => by cases h⟩

/-- C1: for every input arg, if the payload creator settles with a plain
value V, the condition gate is absent or passes and abort is never
called, then exactly two events are dispatched, in order the pending
event then the fulfilled event whose payload is V, and unwrap resolves
to V. -/
theorem c1_plain_value_two_events (p : String) (arg : JSVal) (rid : String)
    (cfg : RunCfg) (v : JSVal)
    (hcond : condPasses cfg.options)
    (hcr : cfg.creator = .value v)
    (hab : cfg.abort = .noAbort) :
    (runThunk p arg rid cfg).1 =
      [pendingAction p rid arg (pendingMetaOf cfg.options),
       fulfilledAction p v rid arg .jsUndefined] ∧
    (runThunk p arg rid cfg).2 = fulfilledAction p v rid arg .jsUndefined ∧
    (runThunk p arg rid cfg).2.payload = v ∧
    unwrapRun p arg rid cfg = .ok v := by
  obtain ⟨cv, hcv, hfalse⟩ := hcond
  have hsnd : (runThunk p arg rid cfg).2 = fulfilledAction p v rid arg .jsUndefined := by
    rw [runThunk_snd]
    simp [tryBlock, hcv, hfalse, raceResult, hab, abortWins, hcr]
  have hskip : skipDispatch p cfg.options (runThunk p arg rid cfg).2 = false := by
    rw [hsnd]
    exact skipDispatch_fulfilled p cfg.options v rid arg .jsUndefined
  have hfst : (tryBlock p arg rid cfg).1 =
      [pendingAction p rid arg (pendingMetaOf cfg.options)] := by
    simp [tryBlock, hcv, hfalse]
  refine ⟨?_, hsnd, ?_, ?_⟩
  · rw [runThunk_fst, hfst, hskip, hsnd]
    rfl
  · rw [hsnd]
    rfl
  · rw [unwrapRun, hsnd]
    rfl

/-- C1 witness: a concrete invocation with input 7, plain creator value 7,
no options and no abort call. -/
theorem c1_plain_value_two_events_witness :
    (runThunk "fetchUser" (.num 7) "rid1"
      { options := none, creator := .value (.num 7),
        creatorStep := 0, abort := .noAbort }).1 =
      [pendingAction "fetchUser" "rid1" (.num 7)
        (pendingMetaOf (none : Option ThunkOptions)),
       fulfilledAction "fetchUser" (.num 7) "rid1" (.num 7) .jsUndefined] ∧
    (runThunk "fetchUser" (.num 7) "rid1"
      { options := none, creator := .value (.num 7),
        creatorStep := 0, abort := .noAbort }).2 =
      fulfilledAction "fetchUser" (.num 7) "rid1" (.num 7) .jsUndefined ∧
    (runThunk "fetchUser" (.num 7) "rid1"
      { options := none, creator := .value (.num 7),
        creatorStep := 0, abort := .noAbort }).2.payload = .num 7 ∧
    unwrapRun "fetchUser" (.num 7) "rid1"
      { options := none, creator := .value (.num 7),
        creatorStep := 0, abort := .noAbort } = .ok (.num 7) :=
  c1_plain_value_two_events "fetchUser" (.num 7) "rid1"
    { options := none, creator := .value (.num 7),
      creatorStep := 0, abort := .noAbort }
    (.num 7) ⟨.jsUndefined, rfl, rfl⟩ rfl rfl

/-- C2 amended: a payload creator settling with rejectWithValue(P, M)
(condition passing, no abort) yields a final rejected event with payload
P and metadata containing M verbatim on every non-engine key, but the
rejectedWithValue flag equals the truthiness of P: it is true exactly
when P is truthy and false for falsy P such as 0, the empty string or
false. -/
theorem c2_reject_with_value_amended (p : String) (arg : JSVal) (rid : String)
    (cfg : RunCfg) (P : JSVal) (mf : List (String × JSVal))
    (hcond : condPasses cfg.options)
    (hcr : cfg.creator = .rejectWith P (.obj mf))
    (hab : cfg.abort = .noAbort) :
    (runThunk p arg rid cfg).2 = rejectedAction p .null rid arg P (.obj mf) ∧
    (runThunk p arg rid cfg).2.payload = P ∧
    metaGet (runThunk p arg rid cfg).2 "rejectedWithValue" = .bool (jsTruthy P) ∧
    (jsTruthy P = true →
      metaGet (runThunk p arg rid cfg).2 "rejectedWithValue" = .bool true) ∧
    (∀ k, k ∉ rejectedEngineKeys →
      metaGet (runThunk p arg rid cfg).2 k = propGet (.obj mf) k) := by
  obtain ⟨cv, hcv, hfalse⟩ := hcond
  have hsnd : (runThunk p arg rid cfg).2 =
      rejectedAction p .null rid arg P (.obj mf) := by
    rw [runThunk_snd]
    simp [tryBlock, hcv, hfalse, raceResult, hab, abortWins, hcr, catchClause]
  refine ⟨hsnd, ?_, ?_, ?_, ?_⟩
  · rw [hsnd]
    rfl
  · rw [hsnd]; rfl
  · intro hP
    rw [hsnd]
    show JSVal.bool (jsTruthy P) = .bool true
    rw [hP]
  · intro k hk
    simp only [rejectedEngineKeys, List.mem_cons, List.not_mem_nil, or_false,
      not_or] at hk
    obtain ⟨h1, h2, h3, h4, h5, h6⟩ := hk
    rw [hsnd]
    show propGet (rejectedAction p .null rid arg P (.obj mf)).meta k = _
    simp only [rejectedAction, propGet]
    rw [getProp_append_of_none]
    · rfl
    · simp [Ne.symm h1, Ne.symm h2, Ne.symm h3, Ne.symm h4, Ne.symm h5, Ne.symm h6]

/-- C2 amended witness: rejectWithValue with the truthy payload 1 and a
user metadata object; the flag is true and the metadata key is copied. -/
theorem c2_reject_with_value_amended_witness :
    (runThunk "t" (.num 5) "r"
      { options := none, creator := .rejectWith (.num 1) (.obj [("k", .str "m")]),
        creatorStep := 0, abort := .noAbort }).2.payload = .num 1 ∧
    metaGet (runThunk "t" (.num 5) "r"
      { options := none, creator := .rejectWith (.num 1) (.obj [("k", .str "m")]),
        creatorStep := 0, abort := .noAbort }).2 "rejectedWithValue"
      = .bool true ∧
    metaGet (runThunk "t" (.num 5) "r"
      { options := none, creator := .rejectWith (.num 1) (.obj [("k", .str "m")]),
        creatorStep := 0, abort := .noAbort }).2 "k" = .str "m" := by
  have h := c2_reject_with_value_amended "t" (.num 5) "r"
    { options := none, creator := .rejectWith (.num 1) (.obj [("k", .str "m")]),
      creatorStep := 0, abort := .noAbort }
    (.num 1) [("k", .str "m")] ⟨.jsUndefined, rfl, rfl⟩ rfl rfl
  refine ⟨h.2.1, h.2.2.2.1 rfl, ?_⟩
  have hc := h.2.2.2.2 "k" (by decide)
  rw [hc]
  rfl

/-- C3 amended: an abort call before arming has no effect (the run is the
one with no abort call at all); an abort call after arming whose signal
is ready no later than the step at which the payload creator's settlement
is ready yields the failed event with metadata.aborted true and the given
non-empty reason (or the default text Aborted when the reason is
omitted), even if the operation would otherwise have succeeded; an abort
call whose signal becomes ready only after the settlement won the race
has no effect and the natural outcome stands. -/
theorem c3_abort_semantics_amended (p : String) (arg : JSVal) (rid : String)
    (cfg : RunCfg) (t : Nat) (r : Option String)
    (hcond : condPasses cfg.options) :
    (∀ reason, runThunk p arg rid { cfg with abort := .beforeArming reason } =
       runThunk p arg rid { cfg with abort := .noAbort }) ∧
    (cfg.abort = .afterArming t r → t ≤ cfg.creatorStep →
       (runThunk p arg rid cfg).2 =
         rejectedAction p (abortError r) rid arg .jsUndefined .jsUndefined ∧
       metaGet (runThunk p arg rid cfg).2 "aborted" = .bool true ∧
       (r = none →
         propGet (runThunk p arg rid cfg).2.error "message" = .str "Aborted") ∧
       (∀ s, r = some s → s ≠ "" →
         propGet (runThunk p arg rid cfg).2.error "message" = .str s)) ∧
    (cfg.abort = .afterArming t r → cfg.creatorStep < t →
       runThunk p arg rid cfg = runThunk p arg rid { cfg with abort := .noAbort }) := by
  obtain ⟨opts, creator, step, ab⟩ := cfg
  refine ⟨?_, ?_, ?_⟩
  · intro reason
    exact runThunk_abort_inert p arg rid ⟨opts, creator, step, ab⟩
      (.beforeArming reason) .noAbort rfl rfl
  · intro hab hle
    subst hab
    obtain ⟨cv, hcv, hfalse⟩ := hcond
    have hw : abortWins (AbortCall.afterArming t r) step = true := by
      simp [abortWins, hle]
    have hsnd : (runThunk p arg rid ⟨opts, creator, step, .afterArming t r⟩).2 =
        rejectedAction p (abortError r) rid arg .jsUndefined .jsUndefined := by
      rw [runThunk_snd]
      simp only at hcv
      simp [tryBlock, hcv, hfalse, raceResult, hw, abortReasonOf, catchClause]
    refine ⟨hsnd, ?_, ?_, ?_⟩
    · rw [hsnd]; rfl
    · intro hr; subst hr; rw [hsnd]; rfl
    · intro s hr hs
      subst hr
      have hmsg : abortMessage (some s) = s := by simp [abortMessage, hs]
      rw [hsnd]
      simp [rejectedAction, abortError, miniSerializeError, commonProperties,
        propGet, jsTruthy, hmsg]
  · intro hab hlt
    subst hab
    have h1 : abortWins (AbortCall.afterArming t r) step = false := by
      simp [abortWins, Nat.not_le.mpr hlt]
    exact runThunk_abort_inert p arg rid ⟨opts, creator, step, .noAbort⟩
      (.afterArming t r) .noAbort h1 rfl

/-- C3 amended witness: a concrete run whose abort is called after arming
at the same step the creator settles; the event is aborted with the
default message, and a concrete run whose abort comes later keeps the
fulfilled outcome. -/
theorem c3_abort_semantics_amended_witness :
    (runThunk "t" (.num 5) "r"
      { options := none, creator := .value (.num 1),
        creatorStep := 2, abort := .afterArming 2 none }).2 =
      rejectedAction "t" (abortError none) "r" (.num 5) .jsUndefined .jsUndefined ∧
    metaGet (runThunk "t" (.num 5) "r"
      { options := none, creator := .value (.num 1),
        creatorStep := 2, abort := .afterArming 2 none }).2 "aborted"
      = .bool true ∧
    propGet (runThunk "t" (.num 5) "r"
      { options := none, creator := .value (.num 1),
        creatorStep := 2, abort := .afterArming 2 none }).2.error "message"
      = .str "Aborted" := by
  have h := (c3_abort_semantics_amended "t" (.num 5) "r"
    { options := none, creator := .value (.num 1),
      creatorStep := 2, abort := .afterArming 2 none }
    2 none ⟨.jsUndefined, rfl, rfl⟩).2.1 rfl (by decide)
  exact ⟨h.1, h.2.1, h.2.2.1 rfl⟩

/-- C4: when the condition option returns false the payload creator is
never invoked (the run does not depend on it) and no pending event is
dispatched; with dispatchConditionRejection unset (false) nothing is
dispatched at all but the promise still resolves to a rejected event
with metadata.condition true; with dispatchConditionRejection true that
same event is also dispatched. -/
theorem c4_condition_false (p : String) (arg : JSVal) (rid : String)
    (cfg : RunCfg) (o : ThunkOptions)
    (hopts : cfg.options = some o)
    (hcond : o.condition = some (.ret (.bool false))) :
    (∀ c, runThunk p arg rid { cfg with creator := c } = runThunk p arg rid cfg) ∧
    (o.dispatchConditionRejection = false → (runThunk p arg rid cfg).1 = []) ∧
    (o.dispatchConditionRejection = true →
      (runThunk p arg rid cfg).1 = [(runThunk p arg rid cfg).2]) ∧
    (runThunk p arg rid cfg).2 =
      rejectedAction p conditionError rid arg .jsUndefined .jsUndefined ∧
    metaGet (runThunk p arg rid cfg).2 "condition" = .bool true := by
  obtain ⟨opts, creator, step, ab⟩ := cfg
  simp only at hopts
  subst hopts
  have hcr : condResult (some o) = .ok (.bool false) := by
    simp [condResult, hcond]
  have hsnd : (runThunk p arg rid ⟨some o, creator, step, ab⟩).2 =
      rejectedAction p conditionError rid arg .jsUndefined .jsUndefined := by
    rw [runThunk_snd]
    simp [tryBlock, hcr, strictFalse, catchClause]
  have hmeta : metaGet (runThunk p arg rid ⟨some o, creator, step, ab⟩).2 "condition"
      = .bool true := by
    rw [hsnd]; rfl
  have hskip : skipDispatch p (some o)
      (runThunk p arg rid ⟨some o, creator, step, ab⟩).2
      = !o.dispatchConditionRejection := by
    rw [hsnd]
    simp [skipDispatch, rejectedAction, propGet, nameIs, conditionError, jsTruthy]
  have hfst : (tryBlock p arg rid ⟨some o, creator, step, ab⟩).1 = [] := by
    simp [tryBlock, hcr, strictFalse]
  refine ⟨?_, ?_, ?_, hsnd, hmeta⟩
  · intro c
    simp [runThunk, tryBlock, hcr, strictFalse]
  · intro hd
    rw [runThunk_fst, hfst, hskip, hd]
    rfl
  · intro hd
    rw [runThunk_fst, hfst, hskip, hd]
    rfl

/-- C4 witness: a concrete run with a synchronously false condition;
with suppression (the default) nothing is dispatched, and the promise
resolves to the condition-rejected event. -/
theorem c4_condition_false_witness :
    (runThunk "t" (.num 5) "r"
      { options := some { condition := some (.ret (.bool false)),
                          dispatchConditionRejection := false,
                          getPendingMeta := none },
        creator := .value (.num 1), creatorStep := 0, abort := .noAbort }).1
      = [] ∧
    (runThunk "t" (.num 5) "r"
      { options := some { condition := some (.ret (.bool false)),
                          dispatchConditionRejection := false,
                          getPendingMeta := none },
        creator := .value (.num 1), creatorStep := 0, abort := .noAbort }).2
      = rejectedAction "t" conditionError "r" (.num 5) .jsUndefined .jsUndefined ∧
    metaGet (runThunk "t" (.num 5) "r"
      { options := some { condition := some (.ret (.bool false)),
                          dispatchConditionRejection := false,
                          getPendingMeta := none },
        creator := .value (.num 1), creatorStep := 0, abort := .noAbort }).2
        "condition" = .bool true := by
  have h := c4_condition_false "t" (.num 5) "r"
    { options := some { condition := some (.ret (.bool false)),
                        dispatchConditionRejection := false,
                        getPendingMeta := none },
      creator := .value (.num 1), creatorStep := 0, abort := .noAbort }
    { condition := some (.ret (.bool false)),
      dispatchConditionRejection := false,
      getPendingMeta := none } rfl rfl
  exact ⟨h.2.1 rfl, h.2.2.2.1, h.2.2.2.2⟩

/-- C5: for every invocation configuration (any condition behaviour, any
payload creator outcome, any abort timing), the promise the caller gets
back resolves to a final action that is one of the engine's fulfilled or
rejected events; no thrown value escapes the engine. -/
theorem c5_promise_never_rejects (p : String) (arg : JSVal) (rid : String)
    (cfg : RunCfg) :
    ((∃ v m, (runThunk p arg rid cfg).2 = fulfilledAction p v rid arg m) ∨
     (∃ e pl m, (runThunk p arg rid cfg).2 = rejectedAction p e rid arg pl m)) ∧
    ((runThunk p arg rid cfg).2.type = p ++ "/fulfilled" ∨
     (runThunk p arg rid cfg).2.type = p ++ "/rejected") := by
  refine ⟨final_shape p arg rid cfg, ?_⟩
  rcases final_shape p arg rid cfg with ⟨v, m, h⟩ | ⟨e, pl, m, h⟩
  · left; rw [h]; rfl
  · right; rw [h]; rfl

/-- C6 amended: for the final event of every run, unwrapResult rejects
with the event's payload whenever the event's metadata carries a truthy
rejectedWithValue flag (this includes fulfilled events whose caller meta
reintroduced the flag), resolves to the payload for fulfilled events
without such a flag, and rejects with the event's error field for
rejected events without the flag. -/
theorem c6_unwrap_amended (p : String) (arg : JSVal) (rid : String)
    (cfg : RunCfg) :
    (jsTruthy (metaGet (runThunk p arg rid cfg).2 "rejectedWithValue") = true →
      unwrapResult (runThunk p arg rid cfg).2 =
        .error (runThunk p arg rid cfg).2.payload) ∧
    ((runThunk p arg rid cfg).2.type = p ++ "/fulfilled" →
      jsTruthy (metaGet (runThunk p arg rid cfg).2 "rejectedWithValue") = false →
      unwrapResult (runThunk p arg rid cfg).2 =
        .ok (runThunk p arg rid cfg).2.payload) ∧
    ((runThunk p arg rid cfg).2.type = p ++ "/rejected" →
      jsTruthy (metaGet (runThunk p arg rid cfg).2 "rejectedWithValue") = false →
      unwrapResult (runThunk p arg rid cfg).2 =
        .error (runThunk p arg rid cfg).2.error) := by
  rcases final_shape p arg rid cfg with ⟨v, m, h⟩ | ⟨e, pl, m, h⟩
  · have hmeta : jsTruthy (fulfilledAction p v rid arg m).meta = true := rfl
    have herr2 : jsTruthy (fulfilledAction p v rid arg m).error = false := rfl
    refine ⟨?_, ?_, ?_⟩
    · intro hflag
      rw [metaGet, h] at hflag
      rw [h]
      simp only [unwrapResult]
      rw [hmeta, hflag]
      simp
    · intro _ hflag
      rw [metaGet, h] at hflag
      rw [h]
      simp only [unwrapResult]
      rw [hmeta, hflag, herr2]
      simp
    · intro htype _
      rw [h] at htype
      exact absurd htype (fulfilled_ne_rejected p)
  · have hmeta : jsTruthy (rejectedAction p e rid arg pl m).meta = true := rfl
    have herr3 : jsTruthy (rejectedAction p e rid arg pl m).error = true :=
      jsTruthy_miniSerializeError (if jsTruthy e then e else .str "Rejected")
    refine ⟨?_, ?_, ?_⟩
    · intro hflag
      rw [metaGet, h] at hflag
      rw [h]
      simp only [unwrapResult]
      rw [hmeta, hflag]
      simp
    · intro htype _
      rw [h] at htype
      exact absurd htype.symm (fulfilled_ne_rejected p)
    · intro _ hflag
      rw [metaGet, h] at hflag
      rw [h]
      simp only [unwrapResult]
      rw [hmeta, hflag, herr3]
      simp

/-- C6 amended witness: a concrete rejected event carrying a truthy
rejectedWithValue flag; unwrapResult rejects with its payload. -/
theorem c6_unwrap_amended_witness :
    jsTruthy (metaGet (runThunk "t" (.num 5) "r"
      { options := none, creator := .rejectWith (.num 1) (.obj []),
        creatorStep := 0, abort := .noAbort }).2 "rejectedWithValue") = true ∧
    unwrapResult (runThunk "t" (.num 5) "r"
      { options := none, creator := .rejectWith (.num 1) (.obj []),
        creatorStep := 0, abort := .noAbort }).2 =
      .error (runThunk "t" (.num 5) "r"
        { options := none, creator := .rejectWith (.num 1) (.obj []),
          creatorStep := 0, abort := .noAbort }).2.payload :=
  ⟨rfl,
   (c6_unwrap_amended "t" (.num 5) "r"
     { options := none, creator := .rejectWith (.num 1) (.obj []),
       creatorStep := 0, abort := .noAbort }).1 rfl⟩

/-- C7: a payload creator that throws (or rejects with) a plain error
object yields a final rejected event with rejectedWithValue false whose
error field holds exactly the string-typed fields among name, message,
stack and code of the thrown object; non-string and unrelated fields are
dropped. -/
theorem c7_thrown_error_normalized (p : String) (arg : JSVal) (rid : String)
    (cfg : RunCfg) (ef : List (String × JSVal))
    (hcond : condPasses cfg.options)
    (hcr : cfg.creator = .throws (.obj ef))
    (hab : cfg.abort = .noAbort) :
    (runThunk p arg rid cfg).2 = rejectedAction p (.obj ef) rid arg .jsUndefined .jsUndefined ∧
    metaGet (runThunk p arg rid cfg).2 "rejectedWithValue" = .bool false ∧
    (runThunk p arg rid cfg).2.error = miniSerializeError (.obj ef) ∧
    (∀ k, propGet (runThunk p arg rid cfg).2.error k =
      (if k ∈ commonProperties then
        match getProp ef k with
        | some (.str s) => JSVal.str s
        | _ => JSVal.jsUndefined
      else JSVal.jsUndefined)) := by
  obtain ⟨cv, hcv, hfalse⟩ := hcond
  have hsnd : (runThunk p arg rid cfg).2 =
      rejectedAction p (.obj ef) rid arg .jsUndefined .jsUndefined := by
    rw [runThunk_snd]
    simp [tryBlock, hcv, hfalse, raceResult, hab, abortWins, hcr, catchClause]
  have herr : (runThunk p arg rid cfg).2.error = miniSerializeError (.obj ef) := by
    rw [hsnd]; rfl
  refine ⟨hsnd, by rw [hsnd]; rfl, herr, ?_⟩
  intro k
  rw [herr]
  show (getProp (commonProperties.filterMap fun property =>
      match getProp ef property with
      | some (.str s) => some (property, JSVal.str s)
      | _ => none) k).getD .jsUndefined = _
  rw [getProp_serializeFields]
  by_cases hmem : k ∈ commonProperties
  · rw [if_pos hmem, if_pos hmem]
    rcases hgp : getProp ef k with _ | w
    · rfl
    · cases w <;> rfl
  · rw [if_neg hmem, if_neg hmem]
    rfl

/-- C7 witness: a thrown object with a string name, a non-string message,
a string code and an unrelated field; the normalized error keeps name and
code, drops the non-string message and the unrelated field. -/
theorem c7_thrown_error_normalized_witness :
    metaGet (runThunk "t" (.num 5) "r"
      { options := none,
        creator := .throws (.obj [("name", .str "E"), ("message", .num 3),
          ("code", .str "X"), ("extra", .str "y")]),
        creatorStep := 0, abort := .noAbort }).2 "rejectedWithValue"
      = .bool false ∧
    propGet (runThunk "t" (.num 5) "r"
      { options := none,
        creator := .throws (.obj [("name", .str "E"), ("message", .num 3),
          ("code", .str "X"), ("extra", .str "y")]),
        creatorStep := 0, abort := .noAbort }).2.error "name" = .str "E" ∧
    propGet (runThunk "t" (.num 5) "r"
      { options := none,
        creator := .throws (.obj [("name", .str "E"), ("message", .num 3),
          ("code", .str "X"), ("extra", .str "y")]),
        creatorStep := 0, abort := .noAbort }).2.error "message" = .jsUndefined ∧
    propGet (runThunk "t" (.num 5) "r"
      { options := none,
        creator := .throws (.obj [("name", .str "E"), ("message", .num 3),
          ("code", .str "X"), ("extra", .str "y")]),
        creatorStep := 0, abort := .noAbort }).2.error "extra" = .jsUndefined := by
  have h := c7_thrown_error_normalized "t" (.num 5) "r"
    { options := none,
      creator := .throws (.obj [("name", .str "E"), ("message", .num 3),
        ("code", .str "X"), ("extra", .str "y")]),
      creatorStep := 0, abort := .noAbort }
    [("name", .str "E"), ("message", .num 3), ("code", .str "X"), ("extra", .str "y")]
    ⟨.jsUndefined, rfl, rfl⟩ rfl rfl
  refine ⟨h.2.1, ?_, ?_, ?_⟩
  · rw [h.2.2.2 "name"]; rfl
  · rw [h.2.2.2 "message"]; rfl
  · rw [h.2.2.2 "extra"]; rfl

/-- C8: when the payload creator's settlement and the abort signal become
ready in the same scheduling step, the race is decided for the abort (the
aborted promise is listed first in the race array), so the final event is
the aborted rejection regardless of the creator's outcome. -/
theorem c8_tie_break_abort_wins (p : String) (arg : JSVal) (rid : String)
    (cfg : RunCfg) (t : Nat) (r : Option String)
    (hcond : condPasses cfg.options)
    (hab : cfg.abort = .afterArming t r)
    (ht : cfg.creatorStep = t) :
    (runThunk p arg rid cfg).2 =
      rejectedAction p (abortError r) rid arg .jsUndefined .jsUndefined ∧
    metaGet (runThunk p arg rid cfg).2 "aborted" = .bool true := by
  obtain ⟨cv, hcv, hfalse⟩ := hcond
  have hw : abortWins (AbortCall.afterArming t r) cfg.creatorStep = true := by
    rw [ht]
    simp [abortWins]
  have hsnd : (runThunk p arg rid cfg).2 =
      rejectedAction p (abortError r) rid arg .jsUndefined .jsUndefined := by
    rw [runThunk_snd]
    simp [tryBlock, hcv, hfalse, raceResult, hw, hab, abortReasonOf, catchClause]
  exact ⟨hsnd, by rw [hsnd]; rfl⟩

/-- C8 witness: a concrete run whose creator would settle with a plain
value at step 4, with the abort signal ready at the same step 4; the
outcome is the aborted rejection. -/
theorem c8_tie_break_abort_wins_witness :
    (runThunk "t" (.num 5) "r"
      { options := none, creator := .value (.num 1),
        creatorStep := 4, abort := .afterArming 4 (some "stop") }).2 =
      rejectedAction "t" (abortError (some "stop")) "r" (.num 5) .jsUndefined .jsUndefined ∧
    metaGet (runThunk "t" (.num 5) "r"
      { options := none, creator := .value (.num 1),
        creatorStep := 4, abort := .afterArming 4 (some "stop") }).2 "aborted"
      = .bool true :=
  c8_tie_break_abort_wins "t" (.num 5) "r"
    { options := none, creator := .value (.num 1),
      creatorStep := 4, abort := .afterArming 4 (some "stop") }
    4 (some "stop") ⟨.jsUndefined, rfl, rfl⟩ rfl rfl

/-- C9: every lifecycle event a run produces (the final event and every
dispatched event) has metadata containing the input arg, the requestId
and the requestStatus, and every rejected event's metadata additionally
carries the boolean flags aborted, condition and rejectedWithValue. -/
theorem c9_meta_invariant (p : String) (arg : JSVal) (rid : String)
    (cfg : RunCfg) (a : Action)
    (ha : a ∈ (runThunk p arg rid cfg).2 :: (runThunk p arg rid cfg).1) :
    metaHas a "arg" = true ∧
    metaHas a "requestId" = true ∧
    metaHas a "requestStatus" = true ∧
    metaGet a "arg" = arg ∧
    metaGet a "requestId" = .str rid ∧
    (a.type = p ++ "/rejected" →
      (∃ b, metaGet a "aborted" = .bool b) ∧
      (∃ b, metaGet a "condition" = .bool b) ∧
      (∃ b, metaGet a "rejectedWithValue" = .bool b)) := by
  have hforms : (∃ m, a = pendingAction p rid arg m) ∨
      (∃ v m, a = fulfilledAction p v rid arg m) ∨
      (∃ e pl m, a = rejectedAction p e rid arg pl m) := by
    rcases List.mem_cons.mp ha with h | h
    · rcases final_shape p arg rid cfg with ⟨v, m, hf⟩ | ⟨e, pl, m, hf⟩
      · right; left; exact ⟨v, m, h.trans hf⟩
      · right; right; exact ⟨e, pl, m, h.trans hf⟩
    · rcases dispatched_shape p arg rid cfg a h with h1 | h2
      · left; exact ⟨pendingMetaOf cfg.options, h1⟩
      · rcases final_shape p arg rid cfg with ⟨v, m, hf⟩ | ⟨e, pl, m, hf⟩
        · right; left; exact ⟨v, m, h2.trans hf⟩
        · right; right; exact ⟨e, pl, m, h2.trans hf⟩
  rcases hforms with ⟨m, hf⟩ | ⟨v, m, hf⟩ | ⟨e, pl, m, hf⟩ <;> subst hf
  · refine ⟨rfl, rfl, rfl, rfl, rfl, ?_⟩
    intro htype
    exact absurd htype (pending_ne_rejected p)
  · refine ⟨rfl, rfl, rfl, rfl, rfl, ?_⟩
    intro htype
    exact absurd htype (fulfilled_ne_rejected p)
  · exact ⟨rfl, rfl, rfl, rfl, rfl,
      fun _ => ⟨⟨_, rfl⟩, ⟨_, rfl⟩, ⟨_, rfl⟩⟩⟩

/-- C9 witness: the final event of a concrete successful run carries the
three metadata fields with the engine values. -/
theorem c9_meta_invariant_witness :
    metaHas (runThunk "t" (.num 7) "r"
      { options := none, creator := .value (.num 9),
        creatorStep := 0, abort := .noAbort }).2 "arg" = true ∧
    metaHas (runThunk "t" (.num 7) "r"
      { options := none, creator := .value (.num 9),
        creatorStep := 0, abort := .noAbort }).2 "requestId" = true ∧
    metaHas (runThunk "t" (.num 7) "r"
      { options := none, creator := .value (.num 9),
        creatorStep := 0, abort := .noAbort }).2 "requestStatus" = true ∧
    metaGet (runThunk "t" (.num 7) "r"
      { options := none, creator := .value (.num 9),
        creatorStep := 0, abort := .noAbort }).2 "arg" = .num 7 ∧
    metaGet (runThunk "t" (.num 7) "r"
      { options := none, creator := .value (.num 9),
        creatorStep := 0, abort := .noAbort }).2 "requestId" = .str "r" := by
  have h := c9_meta_invariant "t" (.num 7) "r"
    { options := none, creator := .value (.num 9),
      creatorStep := 0, abort := .noAbort }
    (runThunk "t" (.num 7) "r"
      { options := none, creator := .value (.num 9),
        creatorStep := 0, abort := .noAbort }).2
    (List.mem_cons_self _ _)
  exact ⟨h.1, h.2.1, h.2.2.1, h.2.2.2.1, h.2.2.2.2.1⟩

end RTK
